import Mathlib

set_option linter.unusedVariables false

/-!
Verification of the logFUSE passthrough filesystem (src/logfuse.cpp) against
its natural-language specification.

The development shallowly embeds the non-trivial parts of the program:
  * the uniform error translator `RETURN_FUSE_ERRNO` (logfuse.cpp:65-73);
  * the file open / create descriptor acquisition (logfuse.cpp:587-605,
    1038-1053);
  * the directory cursor machinery: `logfuse_opendir` (824-857) and
    `logfuse_readdir` (866-918), with the underlying `DIR *` stream modelled
    as a list of entries plus a `telldir` position;
  * the extended metadata update engines `logfuse_setattr_x` (1466-1541) and
    `logfuse_fsetattr_x` (1552-1627), with each underlying native call's
    outcome supplied as a parameter (`none` = success returning 0,
    `some e` = failure returning -1 with `errno = e`);
  * the unconditionally stubbed operations `logfuse_ioctl` (1170-1178) and
    `logfuse_poll` (1187-1195).

Observable effects that the claims talk about (which native calls were made,
what got stored in the FUSE handle slot, whether an already-opened stream was
closed again) are returned alongside the integer result.
-/

namespace LogFuse

/-- `errno` value `ENOMEM` ("cannot allocate memory"), 12 on the target
platforms. -/
def ENOMEM : Nat := 12

/-! ## Error translator (`RETURN_FUSE_ERRNO`, logfuse.cpp:65-73)

The macro reads the native result `sysErr` and the process-global `errno`:
`if (sysErr == -1) return (-errno); return (sysErr);`. -/

def return_fuse_errno (sysErr : Int) (eno : Nat) : Int :=
  if sysErr = -1 then -(eno : Int) else sysErr

/-! ## File open and create (logfuse.cpp:587-605 and 1038-1053)

`fd = open(path, flags[, mode]); if (fd == -1) return (-errno);
fileInfo->fh = fd; return (0);`.  The native `open` outcome is supplied as
`fd` (with `eno` the value of `errno`, meaningful when `fd = -1`); `fh` is
the incoming contents of the handle slot.  The result is the returned code
paired with the handle slot contents after the call. -/

def logfuse_open (path : String) (flags : Int) (fd : Int) (eno : Nat)
    (fh : Int) : Int × Int :=
  if fd = -1 then (-(eno : Int), fh) else (0, fd)

def logfuse_create (path : String) (mode : Nat) (flags : Int) (fd : Int)
    (eno : Nat) (fh : Int) : Int × Int :=
  if fd = -1 then (-(eno : Int), fh) else (0, fd)

/-! ## Stubbed operations (logfuse.cpp:1170-1178, 1187-1195)

Both bodies are a log call followed by `return (-ENOMEM);`.  The second
component records the underlying native filesystem calls performed: there
are none. -/

def logfuse_ioctl (path : String) (cmd : Int) : Int × List String :=
  (-(ENOMEM : Int), [])

def logfuse_poll (path : String) : Int × List String :=
  (-(ENOMEM : Int), [])

/-! ## Directory streams

A `DIR *` stream is a list of entries plus the `telldir` position.
`readdir` hands out the entry at the current position and advances;
`seekdir` sets the position; `telldir` reads it. -/

structure DirEnt where
  d_ino : Nat
  d_type : Nat
  d_name : String
deriving DecidableEq, Repr

structure DirStream where
  entries : List DirEnt
  pos : Nat
deriving DecidableEq, Repr

def readdir_stream (s : DirStream) : Option DirEnt × DirStream :=
  match s.entries.get? s.pos with
  | some e => (some e, ⟨s.entries, s.pos + 1⟩)
  | none => (none, s)

def telldir_stream (s : DirStream) : Nat := s.pos

def seekdir_stream (s : DirStream) (off : Nat) : DirStream :=
  ⟨s.entries, off⟩

/-- `logfuse_dir_info` (logfuse.cpp:112-116): stream handle, cached entry,
last-returned offset. -/
structure DirInfo where
  dir : DirStream
  entry : Option DirEnt
  offset : Nat
deriving DecidableEq, Repr

/-- The raw triple stored into the FUSE handle slot by `logfuse_opendir`;
the `dir` field mirrors the `DIR *` pointer, which the C code does not
check for null before storing. -/
structure RawDirInfo where
  dir : Option DirStream
  entry : Option DirEnt
  offset : Nat
deriving DecidableEq, Repr

/-- `logfuse_opendir` (logfuse.cpp:824-857).  `dirRes` is the outcome of the
native `opendir` (`none` = null), `eno` the value of `errno` after it, and
`allocOk` whether the `malloc` for the cursor succeeds.  Result: the returned
code, the handle slot contents (`none` = nothing stored), and whether
`closedir` was invoked on the freshly opened stream. -/
def logfuse_opendir (dirRes : Option DirStream) (eno : Nat)
    (allocOk : Bool) : Int × Option RawDirInfo × Bool :=
  let sysErr : Nat := match dirRes with
    | some _ => 0
    | none => eno
  if sysErr ≠ 0 then
    (-(sysErr : Int), none, false)
  else if allocOk then
    (0, some ⟨dirRes, none, 0⟩, false)
  else
    (-(ENOMEM : Int), none, true)

/-! ## Metadata update engine (logfuse.cpp:1466-1541 and 1552-1627)

`logfuse_setattr_x` and `logfuse_fsetattr_x` walk a fixed sequence of
`if (SETATTR_WANTS_...)` blocks.  Each block performs one native call
(returning 0 on success, -1 with `errno` set on failure) and then tests
`sysErr`:

  * the mode and ownership blocks use `if (sysErr == -1) goto done;`
    (jump out on failure);
  * the size, five timestamp, and flags blocks use
    `if (sysErr != -1) goto done;` (jump out on success, fall through to
    the next block on failure).

At `done:` the result goes through `RETURN_FUSE_ERRNO`.  `sysErr` is
uninitialised when no block runs, modelled by the `sysErr0` parameter
(`eno0` is the incoming `errno`).  The list of fields whose native call
was actually performed is returned alongside the result. -/

inductive AttrField where
  | mode | own | size | acctime | modtime | crtime | chgtime | bkuptime
  | flags
deriving DecidableEq, Repr

/-- Selector bitmask of a `setattr_x` request (`SETATTR_WANTS_*`). -/
structure SetattrSel where
  wantsMode : Bool
  wantsUid : Bool
  wantsGid : Bool
  wantsSize : Bool
  wantsAcctime : Bool
  wantsModtime : Bool
  wantsCrtime : Bool
  wantsChgtime : Bool
  wantsBkuptime : Bool
  wantsFlags : Bool
deriving DecidableEq, Repr

/-- Outcomes of the native calls a `setattr_x` request may perform:
`none` = the call returns 0; `some e` = the call returns -1 and sets
`errno = e`.  The path-based entry point reads the outcomes of
`lchmod`/`lchown`/`truncate`/`setattrlist`/`lchflags`, the handle-based
one those of `fchmod`/`fchown`/`ftruncate`/`fsetattrlist`/`fchflags`. -/
structure NativeEnv where
  chmodRes : Option Nat
  chownRes : Option Nat
  truncateRes : Option Nat
  acctimeRes : Option Nat
  modtimeRes : Option Nat
  crtimeRes : Option Nat
  chgtimeRes : Option Nat
  bkuptimeRes : Option Nat
  flagsRes : Option Nat
deriving DecidableEq, Repr

/-- The mutable state threaded through a `setattr_x` body: `sysErr`, the
process-global `errno`, and the trace of native calls performed. -/
structure SetattrState where
  sysErr : Int
  eno : Nat
  calls : List AttrField
deriving DecidableEq, Repr

/-- Perform one native call: record it and update `sysErr`/`errno`. -/
def applyNative (f : AttrField) (res : Option Nat) (st : SetattrState) :
    SetattrState :=
  match res with
  | none => ⟨0, st.eno, st.calls ++ [f]⟩
  | some e => ⟨-1, e, st.calls ++ [f]⟩

/-- One `if (SETATTR_WANTS_...)` block of the form
`sysErr = call(...); if (sysErr == -1) goto done;` (the mode and
ownership blocks).  `Except.error` models the jump to `done:`. -/
def stepStopOnFail (want : Bool) (f : AttrField) (res : Option Nat)
    (st : SetattrState) : Except SetattrState SetattrState :=
  if want then
    let st1 := applyNative f res st
    if st1.sysErr = -1 then .error st1 else .ok st1
  else .ok st

/-- One `if (SETATTR_WANTS_...)` block of the form
`sysErr = call(...); if (sysErr != -1) goto done;` (the size, timestamp
and flags blocks). -/
def stepStopOnSuccess (want : Bool) (f : AttrField) (res : Option Nat)
    (st : SetattrState) : Except SetattrState SetattrState :=
  if want then
    let st1 := applyNative f res st
    if st1.sysErr ≠ -1 then .error st1 else .ok st1
  else .ok st

/-- The shared body of `logfuse_setattr_x` (logfuse.cpp:1471-1540) and
`logfuse_fsetattr_x` (logfuse.cpp:1557-1626): the two functions are
line-for-line identical apart from which native primitive each block
invokes, which is captured by the `NativeEnv` argument. -/
def setattr_x_body (a : SetattrSel) (env : NativeEnv) (sysErr0 : Int)
    (eno0 : Nat) : Int × List AttrField :=
  let r :=
    (stepStopOnFail a.wantsMode .mode env.chmodRes
        ⟨sysErr0, eno0, []⟩).bind fun st =>
    (stepStopOnFail (a.wantsUid || a.wantsGid) .own env.chownRes st).bind
        fun st =>
    (stepStopOnSuccess a.wantsSize .size env.truncateRes st).bind fun st =>
    (stepStopOnSuccess a.wantsAcctime .acctime env.acctimeRes st).bind
        fun st =>
    (stepStopOnSuccess a.wantsModtime .modtime env.modtimeRes st).bind
        fun st =>
    (stepStopOnSuccess a.wantsCrtime .crtime env.crtimeRes st).bind fun st =>
    (stepStopOnSuccess a.wantsChgtime .chgtime env.chgtimeRes st).bind
        fun st =>
    (stepStopOnSuccess a.wantsBkuptime .bkuptime env.bkuptimeRes st).bind
        fun st =>
    (stepStopOnSuccess a.wantsFlags .flags env.flagsRes st).bind fun st =>
    Except.ok st
  let st := match r with
    | .ok st => st
    | .error st => st
  (return_fuse_errno st.sysErr st.eno, st.calls)

/-- `logfuse_setattr_x` (logfuse.cpp:1466-1541), path-based entry point. -/
def logfuse_setattr_x (a : SetattrSel) (env : NativeEnv) (sysErr0 : Int)
    (eno0 : Nat) : Int × List AttrField :=
  setattr_x_body a env sysErr0 eno0

/-- `logfuse_fsetattr_x` (logfuse.cpp:1552-1627), handle-based entry
point. -/
def logfuse_fsetattr_x (a : SetattrSel) (env : NativeEnv) (sysErr0 : Int)
    (eno0 : Nat) : Int × List AttrField :=
  setattr_x_body a env sysErr0 eno0

/-! ## Directory read (logfuse.cpp:866-918) -/

/-- The data handed to the FUSE `filler` callback for one entry
(logfuse.cpp:897-904): the name, a minimal `struct stat` with
`st_ino = d_ino` and `st_mode = d_type << 12`, and the `telldir`
next offset. -/
structure FillRec where
  name : String
  st_ino : Nat
  st_mode : Nat
  nextOffset : Nat
deriving DecidableEq, Repr

def fillRecOf (e : DirEnt) (nextOffset : Nat) : FillRec :=
  ⟨e.d_name, e.d_ino, e.d_type <<< 12, nextOffset⟩

/-- The `while (true)` loop of `logfuse_readdir` (logfuse.cpp:885-915).
If no entry is cached, fetch one (breaking at end of stream); synthesize
the attribute record; `nextOffset = telldir(dir)`; call the filler.  A
nonzero filler result breaks out, retaining the entry as cached and not
advancing `offset`; otherwise the cache is cleared, `offset = nextOffset`,
and the loop continues. -/
def readdir_loop {σ : Type} (filler : σ → FillRec → σ × Bool)
    (d : DirInfo) (buf : σ) : DirInfo × σ :=
  match hE : d.entry with
  | some e =>
    let nextOffset := telldir_stream d.dir
    let fr := filler buf (fillRecOf e nextOffset)
    if fr.2 then
      (d, fr.1)
    else
      readdir_loop filler ⟨d.dir, none, nextOffset⟩ fr.1
  | none =>
    match hR : readdir_stream d.dir with
    | (none, dirAfter) => (⟨dirAfter, none, d.offset⟩, buf)
    | (some e, dirAfter) =>
      let nextOffset := telldir_stream dirAfter
      let fr := filler buf (fillRecOf e nextOffset)
      if fr.2 then
        (⟨dirAfter, some e, d.offset⟩, fr.1)
      else
        readdir_loop filler ⟨dirAfter, none, nextOffset⟩ fr.1
termination_by 2 * (d.dir.entries.length - d.dir.pos) +
  (if d.entry.isSome then 1 else 0)
decreasing_by
  · simp [hE]
  · rcases hg : d.dir.entries[d.dir.pos]? with _ | e1
    · simp [readdir_stream, hg] at hR
    · simp [readdir_stream, hg] at hR
      obtain ⟨h1, h2⟩ := hR
      obtain ⟨hl, _⟩ := List.getElem?_eq_some.1 hg
      subst h2
      simp [hE]
      omega

/-- The repositioning prologue of `logfuse_readdir` (logfuse.cpp:874-880):
`if (offset != dirInfo->offset) { seekdir(...); entry = NULL;
dirInfo->offset = offset; }`. -/
def logfuse_readdir_seek (requested : Nat) (d : DirInfo) : DirInfo :=
  if requested ≠ d.offset then
    ⟨seekdir_stream d.dir requested, none, requested⟩
  else d

/-- `logfuse_readdir` (logfuse.cpp:866-918): reposition if needed, run the
loop, `return (0)`.  Result: the cursor after the call, the filler state
after the call, and the returned code. -/
def logfuse_readdir {σ : Type} (filler : σ → FillRec → σ × Bool)
    (requested : Nat) (d : DirInfo) (buf : σ) : DirInfo × σ × Int :=
  let r := readdir_loop filler (logfuse_readdir_seek requested d) buf
  (r.1, r.2, 0)

/-- A filler that always accepts, collecting the records it receives. -/
def collectFiller : List FillRec → FillRec → List FillRec × Bool :=
  fun acc r => (acc ++ [r], false)

/-- A filler with a finite remaining capacity: it accepts records while
capacity remains and reports "buffer full" once it is exhausted, without
accepting the offered record (the FUSE convention). -/
def capFiller : Nat × List FillRec → FillRec → (Nat × List FillRec) × Bool :=
  fun s r =>
    match s.1 with
    | 0 => ((0, s.2), true)
    | c + 1 => ((c, s.2 ++ [r]), false)

/-- A filler that records the offered entry and immediately reports
"buffer full": it observes the next entry without consuming it. -/
def stopFiller : List FillRec → FillRec → List FillRec × Bool :=
  fun acc r => (acc ++ [r], true)

/-- The record `logfuse_readdir` emits for the entry at stream index `i`:
its next offset is the stream position after it, `i + 1`. -/
def recOf (i : Nat) (e : DirEnt) : FillRec := fillRecOf e (i + 1)

/-- The records emitted for a run of entries starting at stream index
`i`. -/
def recsAux : List DirEnt → Nat → List FillRec
  | [], _ => []
  | e :: rest, i => recOf i e :: recsAux rest (i + 1)

/-- The cursor stored by a successful `logfuse_opendir`
(logfuse.cpp:850-852): fresh stream, no cached entry, offset 0. -/
def freshCursor (entries : List DirEnt) : DirInfo := ⟨⟨entries, 0⟩, none, 0⟩

/-- A small concrete directory used to instantiate the theorems. -/
def dirABC : List DirEnt := [⟨1, 4, "a"⟩, ⟨2, 8, "b"⟩, ⟨3, 8, "c"⟩]

/-!
## Theorems

First, auxiliary facts about the stream primitives and single iterations
of the `logfuse_readdir` loop; then one theorem per specification claim.
-/

theorem readdir_stream_none {s t : DirStream}
    (h : readdir_stream s = (none, t)) :
    t = s ∧ s.entries[s.pos]? = none := by
  rcases hg : s.entries[s.pos]? with _ | e1
  · simp [readdir_stream, List.get?_eq_getElem?, hg] at h
    exact ⟨h.symm, rfl⟩
  · simp [readdir_stream, List.get?_eq_getElem?, hg] at h

theorem readdir_stream_some {s t : DirStream} {e : DirEnt}
    (h : readdir_stream s = (some e, t)) :
    s.entries[s.pos]? = some e ∧ t = ⟨s.entries, s.pos + 1⟩ ∧
      s.pos < s.entries.length := by
  rcases hg : s.entries[s.pos]? with _ | e1
  · simp [readdir_stream, List.get?_eq_getElem?, hg] at h
  · simp [readdir_stream, List.get?_eq_getElem?, hg] at h
    obtain ⟨h1, h2⟩ := h
    subst h1
    obtain ⟨hl, _⟩ := List.getElem?_eq_some.1 hg
    exact ⟨rfl, h2.symm, hl⟩

/-- One loop iteration when an entry is cached: no fetch, the next offset
is the unchanged stream position. -/
theorem loop_step_cached {σ : Type} (filler : σ → FillRec → σ × Bool)
    (d : DirInfo) (e : DirEnt) (buf : σ) (hE : d.entry = some e) :
    readdir_loop filler d buf =
      (if (filler buf (fillRecOf e d.dir.pos)).2 then
        (d, (filler buf (fillRecOf e d.dir.pos)).1)
      else readdir_loop filler ⟨d.dir, none, d.dir.pos⟩
        (filler buf (fillRecOf e d.dir.pos)).1) := by
  rw [readdir_loop.eq_def]
  split
  · rename_i e1 hE2
    rw [hE] at hE2
    obtain rfl := Option.some.inj hE2.symm
    rfl
  · rename_i hE2
    rw [hE] at hE2
    simp at hE2

/-- One loop iteration at end of stream: break, leaving the cursor as it
was. -/
theorem loop_step_end {σ : Type} (filler : σ → FillRec → σ × Bool)
    (entries : List DirEnt) (i off : Nat) (buf : σ)
    (hg : entries[i]? = none) :
    readdir_loop filler ⟨⟨entries, i⟩, none, off⟩ buf =
      (⟨⟨entries, i⟩, none, off⟩, buf) := by
  rw [readdir_loop.eq_def]
  dsimp only
  split
  · rename_i dirAfter hR
    obtain ⟨h1, h2⟩ := readdir_stream_none hR
    subst h1
    rfl
  · rename_i e1 dirAfter hR
    obtain ⟨h1, h2, h3⟩ := readdir_stream_some hR
    rw [hg] at h1
    exact absurd h1 (by simp)

/-- One loop iteration that fetches the entry at stream index `i`: the
stream advances and the emitted next offset is `i + 1`. -/
theorem loop_step_fetch {σ : Type} (filler : σ → FillRec → σ × Bool)
    (entries : List DirEnt) (i off : Nat) (buf : σ) (e : DirEnt)
    (hg : entries[i]? = some e) :
    readdir_loop filler ⟨⟨entries, i⟩, none, off⟩ buf =
      (if (filler buf (fillRecOf e (i + 1))).2 then
        (⟨⟨entries, i + 1⟩, some e, off⟩,
          (filler buf (fillRecOf e (i + 1))).1)
      else readdir_loop filler ⟨⟨entries, i + 1⟩, none, i + 1⟩
        (filler buf (fillRecOf e (i + 1))).1) := by
  rw [readdir_loop.eq_def]
  dsimp only
  split
  · rename_i dirAfter hR
    obtain ⟨h1, h2⟩ := readdir_stream_none hR
    rw [hg] at h2
    exact absurd h2 (by simp)
  · rename_i e1 dirAfter hR
    obtain ⟨h1, h2, h3⟩ := readdir_stream_some hR
    subst h2
    rw [hg] at h1
    obtain h1 := Option.some.inj h1
    subst h1
    simp [telldir_stream]

/-- Running the loop with an always-accepting filler from a cache-free
state at stream index `i` emits exactly the entries from index `i` on. -/
theorem loop_collect (n : Nat) :
    ∀ (entries : List DirEnt) (i off : Nat) (acc : List FillRec),
      entries.length - i ≤ n →
      (readdir_loop collectFiller ⟨⟨entries, i⟩, none, off⟩ acc).2 =
        acc ++ recsAux (entries.drop i) i := by
  induction n with
  | zero =>
    intro entries i off acc h
    have hle : entries.length ≤ i := by omega
    rw [loop_step_end collectFiller entries i off acc
      (List.getElem?_eq_none hle)]
    simp [List.drop_eq_nil_of_le hle, recsAux]
  | succ n ih =>
    intro entries i off acc h
    rcases hg : entries[i]? with _ | e
    · rw [loop_step_end collectFiller entries i off acc hg]
      have hle : entries.length ≤ i := by
        by_contra hc
        push_neg at hc
        rw [List.getElem?_eq_getElem hc] at hg
        simp at hg
      simp [List.drop_eq_nil_of_le hle, recsAux]
    · obtain ⟨hlt, hi⟩ := List.getElem?_eq_some.1 hg
      rw [loop_step_fetch collectFiller entries i off acc e hg]
      simp only [collectFiller]
      rw [if_neg (by simp)]
      rw [ih entries (i + 1) (i + 1) (acc ++ [fillRecOf e (i + 1)])
        (by omega)]
      have hdrop : entries.drop i = e :: entries.drop (i + 1) := by
        rw [List.drop_eq_getElem_cons hlt, hi]
      rw [hdrop]
      simp [recsAux, recOf]

/-- Running the loop with a capacity-`c` filler from a cache-free state at
stream index `i` (with at least `c + 1` entries remaining) accepts exactly
`c` entries; the entry at index `i + c` is offered, rejected, and retained
as cached, and the cursor offset stays at `i + c` (the offset emitted with
the last accepted entry). -/
theorem loop_cap (n : Nat) :
    ∀ (entries : List DirEnt) (i c : Nat) (acc : List FillRec) (e : DirEnt),
      entries.length - i ≤ n → entries[i + c]? = some e →
      readdir_loop capFiller ⟨⟨entries, i⟩, none, i⟩ (c, acc) =
        (⟨⟨entries, i + c + 1⟩, some e, i + c⟩,
          (0, acc ++ recsAux ((entries.drop i).take c) i)) := by
  induction n with
  | zero =>
    intro entries i c acc e h hg
    obtain ⟨hlt, _⟩ := List.getElem?_eq_some.1 hg
    omega
  | succ n ih =>
    intro entries i c acc e h hg
    obtain ⟨hlt, hi⟩ := List.getElem?_eq_some.1 hg
    cases c with
    | zero =>
      have hg0 : entries[i]? = some e := by simpa using hg
      rw [loop_step_fetch capFiller entries i i (0, acc) e hg0]
      simp [capFiller, recsAux]
    | succ c1 =>
      have hi0 : i < entries.length := by omega
      have hg0 : entries[i]? = some entries[i] :=
        List.getElem?_eq_getElem hi0
      rw [loop_step_fetch capFiller entries i i (c1 + 1, acc) entries[i] hg0]
      simp only [capFiller]
      rw [if_neg (by simp)]
      have hg1 : entries[(i + 1) + c1]? = some e := by
        have harg : i + 1 + c1 = i + (c1 + 1) := by omega
        rw [harg]
        exact hg
      rw [ih entries (i + 1) c1 (acc ++ [fillRecOf entries[i] (i + 1)]) e
        (by omega) hg1]
      have hdrop : entries.drop i = entries[i] :: entries.drop (i + 1) :=
        List.drop_eq_getElem_cons hi0
      have e1 : i + 1 + c1 + 1 = i + (c1 + 1) + 1 := by omega
      have e2 : i + 1 + c1 = i + (c1 + 1) := by omega
      rw [e1, e2, hdrop]
      simp [recsAux, recOf, List.take_succ_cons]

theorem recsAux_length (l : List DirEnt) :
    ∀ i, (recsAux l i).length = l.length := by
  induction l with
  | nil => intro i; rfl
  | cons e rest ih => intro i; simp [recsAux, ih]

theorem recsAux_map_nextOffset (l : List DirEnt) :
    ∀ i, (recsAux l i).map FillRec.nextOffset = List.range' (i + 1) l.length := by
  induction l with
  | nil => intro i; rfl
  | cons e rest ih =>
    intro i
    simp only [List.length_cons]
    rw [List.range'_succ]
    simp [recsAux, recOf, fillRecOf, ih]

/-- C3: the uniform error translator `RETURN_FUSE_ERRNO` maps the failure
sentinel -1 with last-error code `E` to `-E`, and any result `R ≥ 0` to
`R` unchanged. -/
theorem return_fuse_errno_contract (E : Nat) (R : Int) (hR : 0 ≤ R) :
    return_fuse_errno (-1) E = -(E : Int) ∧ return_fuse_errno R E = R := by
  have hne : R ≠ -1 := by omega
  constructor
  · simp [return_fuse_errno]
  · simp [return_fuse_errno, hne]

/-- Witness for C3 at `E = 5`, `R = 7`. -/
theorem return_fuse_errno_contract_inst :
    return_fuse_errno (-1) 5 = -(5 : Int) ∧ return_fuse_errno 7 5 = 7 :=
  return_fuse_errno_contract 5 7 (by decide)

/-- C9: the device-control and readiness-poll operations both return the
fixed failure code `-ENOMEM` for every input and perform no underlying
native call. -/
theorem ioctl_poll_stubbed (path1 path2 : String) (cmd : Int) :
    logfuse_ioctl path1 cmd = (-(ENOMEM : Int), [])
    ∧ logfuse_poll path2 = (-(ENOMEM : Int), [])
    ∧ (logfuse_ioctl path1 cmd).1 = (logfuse_poll path2).1 :=
  ⟨rfl, rfl, rfl⟩

/-- C10: `logfuse_readdir` returns 0 on every invocation, for every
cursor, requested offset and filler callback. -/
theorem readdir_always_returns_zero {σ : Type}
    (filler : σ → FillRec → σ × Bool) (requested : Nat) (d : DirInfo)
    (buf : σ) :
    (logfuse_readdir filler requested d buf).2.2 = 0 := rfl

/-- C7: `logfuse_opendir` on a successful underlying open returns 0 and
stores a fresh cursor with offset 0 and no cached entry; on a failed open
it returns the negated native error with nothing stored; on cursor
allocation failure it returns `-ENOMEM`, stores nothing, and closes the
already-opened stream. -/
theorem opendir_contract (d : DirStream) (eno : Nat) (allocOk : Bool)
    (he : eno ≠ 0) :
    logfuse_opendir (some d) eno true = (0, some ⟨some d, none, 0⟩, false)
    ∧ logfuse_opendir none eno allocOk = (-(eno : Int), none, false)
    ∧ logfuse_opendir (some d) eno false =
        (-(ENOMEM : Int), none, true) := by
  refine ⟨?_, ?_, ?_⟩ <;> simp [logfuse_opendir, he]

/-- Witness for C7 at a concrete stream and `errno = 2`. -/
theorem opendir_contract_inst :
    logfuse_opendir (some ⟨dirABC, 0⟩) 2 true =
        (0, some ⟨some ⟨dirABC, 0⟩, none, 0⟩, false)
    ∧ logfuse_opendir none 2 true = (-(2 : Int), none, false)
    ∧ logfuse_opendir (some ⟨dirABC, 0⟩) 2 false =
        (-(ENOMEM : Int), none, true) :=
  opendir_contract ⟨dirABC, 0⟩ 2 true (by decide)

/-- C8: `logfuse_open` and `logfuse_create` share the descriptor
acquisition contract: on a successful underlying open (`fd ≥ 0`) both
return 0 and store the new descriptor in the handle slot; on failure
(`fd = -1`) both return the negated native error and leave the handle
slot unchanged. -/
theorem open_create_descriptor_contract (path : String) (flags : Int)
    (mode : Nat) (fd : Int) (eno : Nat) (fh : Int) (hfd : 0 ≤ fd) :
    logfuse_open path flags fd eno fh = (0, fd)
    ∧ logfuse_create path mode flags fd eno fh = (0, fd)
    ∧ logfuse_open path flags (-1) eno fh = (-(eno : Int), fh)
    ∧ logfuse_create path mode flags (-1) eno fh = (-(eno : Int), fh) := by
  have hne : fd ≠ -1 := by omega
  refine ⟨?_, ?_, ?_, ?_⟩ <;> simp [logfuse_open, logfuse_create, hne]

/-- Witness for C8 at a concrete path, descriptor 3 and `errno = 13`. -/
theorem open_create_descriptor_contract_inst :
    logfuse_open "/tmp/x" 0 3 13 7 = (0, 3)
    ∧ logfuse_create "/tmp/x" 420 0 3 13 7 = (0, 3)
    ∧ logfuse_open "/tmp/x" 0 (-1) 13 7 = (-(13 : Int), 7)
    ∧ logfuse_create "/tmp/x" 420 0 (-1) 13 7 = (-(13 : Int), 7) :=
  open_create_descriptor_contract "/tmp/x" 0 420 3 13 7 (by decide)

/-- C6: for a request selecting mode, uid and size in which the ownership
call fails with error `e` and the mode and size calls would succeed, both
entry points apply the mode change, never attempt the size change, and
return `-e`, the translated ownership-failure error. -/
theorem setattr_partial_mode_uid_size (env : NativeEnv) (e : Nat)
    (sysErr0 : Int) (eno0 : Nat) (hMode : env.chmodRes = none)
    (hOwn : env.chownRes = some e) (hSize : env.truncateRes = none) :
    logfuse_setattr_x
        ⟨true, true, false, true, false, false, false, false, false, false⟩
        env sysErr0 eno0 = (-(e : Int), [.mode, .own])
    ∧ logfuse_fsetattr_x
        ⟨true, true, false, true, false, false, false, false, false, false⟩
        env sysErr0 eno0 = (-(e : Int), [.mode, .own]) := by
  constructor <;>
    simp [logfuse_setattr_x, logfuse_fsetattr_x, setattr_x_body,
      stepStopOnFail, stepStopOnSuccess, applyNative, return_fuse_errno,
      Except.bind, hMode, hOwn, hSize]

/-- Witness for C6: ownership failure `EPERM = 1`, arbitrary incoming
`sysErr`/`errno`. -/
theorem setattr_partial_mode_uid_size_inst :
    logfuse_setattr_x
        ⟨true, true, false, true, false, false, false, false, false, false⟩
        ⟨none, some 1, none, none, none, none, none, none, none⟩ 77 9 =
        (-(1 : Int), [.mode, .own])
    ∧ logfuse_fsetattr_x
        ⟨true, true, false, true, false, false, false, false, false, false⟩
        ⟨none, some 1, none, none, none, none, none, none, none⟩ 77 9 =
        (-(1 : Int), [.mode, .own]) :=
  setattr_partial_mode_uid_size
    ⟨none, some 1, none, none, none, none, none, none, none⟩ 1 77 9
    rfl rfl rfl

/-- C1 (divergence witness): with size and access-time selected, a failing
`truncate` (`errno = 13`) and a succeeding access-time call, both entry
points go on to attempt the access-time call after the size failure and
return 0 rather than -13 — the size/timestamp/flags blocks test
`sysErr != -1` where stop-on-first-failure requires `sysErr == -1`. -/
theorem setattr_x_continues_after_size_failure :
    logfuse_setattr_x
        ⟨false, false, false, true, true, false, false, false, false, false⟩
        ⟨none, none, some 13, none, none, none, none, none, none⟩ 0 0 =
        (0, [.size, .acctime])
    ∧ logfuse_fsetattr_x
        ⟨false, false, false, true, true, false, false, false, false, false⟩
        ⟨none, none, some 13, none, none, none, none, none, none⟩ 0 0 =
        (0, [.size, .acctime]) :=
  ⟨rfl, rfl⟩

/-- C2 (divergence witness): with size and modify-time selected and every
native call succeeding, both entry points return 0 after applying only the
size change — the succeeding size block jumps straight to `done`, so the
selected modify-time field is never attempted. -/
theorem setattr_x_stops_after_size_success :
    logfuse_setattr_x
        ⟨false, false, false, true, false, true, false, false, false, false⟩
        ⟨none, none, none, none, none, none, none, none, none⟩ 0 0 =
        (0, [.size])
    ∧ logfuse_fsetattr_x
        ⟨false, false, false, true, false, true, false, false, false, false⟩
        ⟨none, none, none, none, none, none, none, none, none⟩ 0 0 =
        (0, [.size]) :=
  ⟨rfl, rfl⟩

/-- Reading with a filler that immediately reports "buffer full" never
consumes an entry: the resulting cursor reproduces the same result if the
loop is run on it again, and its offset is unchanged. -/
theorem stop_loop_char (t : DirInfo) :
    ∃ t1 a1, readdir_loop stopFiller t [] = (t1, a1) ∧
      readdir_loop stopFiller t1 [] = (t1, a1) ∧ t1.offset = t.offset := by
  obtain ⟨⟨E, p⟩, ent, toff⟩ := t
  rcases ent with _ | e
  · rcases hg : E[p]? with _ | e1
    · exact ⟨⟨⟨E, p⟩, none, toff⟩, [],
        by rw [loop_step_end stopFiller E p toff [] hg],
        by rw [loop_step_end stopFiller E p toff [] hg], rfl⟩
    · refine ⟨⟨⟨E, p + 1⟩, some e1, toff⟩, [fillRecOf e1 (p + 1)], ?_, ?_,
        rfl⟩
      · rw [loop_step_fetch stopFiller E p toff [] e1 hg]
        simp [stopFiller]
      · rw [loop_step_cached stopFiller ⟨⟨E, p + 1⟩, some e1, toff⟩ e1 []
          rfl]
        simp [stopFiller]
  · refine ⟨⟨⟨E, p⟩, some e, toff⟩, [fillRecOf e p], ?_, ?_, rfl⟩
    · rw [loop_step_cached stopFiller ⟨⟨E, p⟩, some e, toff⟩ e [] rfl]
      simp [stopFiller]
    · rw [loop_step_cached stopFiller ⟨⟨E, p⟩, some e, toff⟩ e [] rfl]
      simp [stopFiller]

/-- C5: `logfuse_readdir` repositioning is idempotent: two reads at the
same requested offset with nothing consumed in between (the filler
refuses every entry) produce the same emitted record and the same final
cursor; and when the requested offset differs from the cursor offset, the
stream is repositioned, the cached entry discarded, and the cursor offset
set to the requested offset before any entry is fetched. -/
theorem readdir_reposition_idempotent (d : DirInfo) (off : Nat) :
    ((logfuse_readdir stopFiller off
        ((logfuse_readdir stopFiller off d []).1) []).2.1 =
      (logfuse_readdir stopFiller off d []).2.1
    ∧ (logfuse_readdir stopFiller off
        ((logfuse_readdir stopFiller off d []).1) []).1 =
      (logfuse_readdir stopFiller off d []).1)
    ∧ (off ≠ d.offset →
      logfuse_readdir_seek off d = ⟨⟨d.dir.entries, off⟩, none, off⟩) := by
  have hseekoff : (logfuse_readdir_seek off d).offset = off := by
    by_cases hoe : off = d.offset
    · simp [logfuse_readdir_seek, hoe]
    · simp [logfuse_readdir_seek, hoe]
  obtain ⟨t1, a1, h1, h2, h3⟩ := stop_loop_char (logfuse_readdir_seek off d)
  have hfst : logfuse_readdir stopFiller off d [] = (t1, a1, 0) := by
    simp only [logfuse_readdir]
    rw [h1]
  have ht1 : t1.offset = off := by rw [h3, hseekoff]
  have hseek2 : logfuse_readdir_seek off t1 = t1 := by
    simp [logfuse_readdir_seek, ht1]
  have hsnd : logfuse_readdir stopFiller off t1 [] = (t1, a1, 0) := by
    simp only [logfuse_readdir, hseek2]
    rw [h2]
  refine ⟨⟨?_, ?_⟩, ?_⟩
  · rw [hfst, show ((t1, a1, (0 : Int))).1 = t1 from rfl, hsnd]
  · rw [hfst, show ((t1, a1, (0 : Int))).1 = t1 from rfl, hsnd]
  · intro hne
    simp [logfuse_readdir_seek, hne, seekdir_stream]

/-- Witness for C5 on the three-entry directory with requested offset 2,
different from the fresh cursor's offset 0. -/
theorem readdir_reposition_idempotent_inst :
    ((logfuse_readdir stopFiller 2
        ((logfuse_readdir stopFiller 2 (freshCursor dirABC) []).1) []).2.1 =
      (logfuse_readdir stopFiller 2 (freshCursor dirABC) []).2.1
    ∧ (logfuse_readdir stopFiller 2
        ((logfuse_readdir stopFiller 2 (freshCursor dirABC) []).1) []).1 =
      (logfuse_readdir stopFiller 2 (freshCursor dirABC) []).1)
    ∧ logfuse_readdir_seek 2 (freshCursor dirABC) =
        ⟨⟨dirABC, 2⟩, none, 2⟩ :=
  ⟨(readdir_reposition_idempotent (freshCursor dirABC) 2).1,
    (readdir_reposition_idempotent (freshCursor dirABC) 2).2 (by decide)⟩

/-- C4: over a directory whose entry at index `k` exists, a read from a
fresh cursor whose filler accepts `k` entries and then reports "buffer
full" emits exactly the first `k` entries (whose emitted next offsets are
1..k, so the k-th carries next offset `k`), retains the offered entry at
index `k` as cached with the cursor offset still `k`; a subsequent read at
requested offset `k` that accepts everything emits exactly the remaining
`N - k` entries, none repeated, none skipped. -/
theorem readdir_stop_resume_exact (entries : List DirEnt) (k : Nat)
    (e : DirEnt) (h : entries[k]? = some e) :
    logfuse_readdir capFiller 0 (freshCursor entries) (k, []) =
        (⟨⟨entries, k + 1⟩, some e, k⟩, (0, recsAux (entries.take k) 0), 0)
    ∧ (recsAux (entries.take k) 0).map FillRec.nextOffset =
        List.range' 1 k
    ∧ (logfuse_readdir collectFiller k
        ⟨⟨entries, k + 1⟩, some e, k⟩ []).2.1 =
        recsAux (entries.drop k) k
    ∧ (recsAux (entries.drop k) k).length = entries.length - k := by
  obtain ⟨hlt, hi⟩ := List.getElem?_eq_some.1 h
  have hseek : logfuse_readdir_seek 0 (⟨⟨entries, 0⟩, none, 0⟩ : DirInfo) =
      ⟨⟨entries, 0⟩, none, 0⟩ := by
    simp [logfuse_readdir_seek]
  refine ⟨?_, ?_, ?_, ?_⟩
  · have hcap := loop_cap entries.length entries 0 k [] e (by omega)
      (by simpa using h)
    simp only [logfuse_readdir, freshCursor]
    rw [hseek, hcap]
    simp
  · rw [recsAux_map_nextOffset]
    congr 1
    rw [List.length_take]
    omega
  · have hseek2 : logfuse_readdir_seek k
        (⟨⟨entries, k + 1⟩, some e, k⟩ : DirInfo) =
        ⟨⟨entries, k + 1⟩, some e, k⟩ := by
      simp [logfuse_readdir_seek]
    simp only [logfuse_readdir, hseek2]
    rw [loop_step_cached collectFiller ⟨⟨entries, k + 1⟩, some e, k⟩ e []
      rfl]
    simp only [collectFiller]
    rw [if_neg (by simp)]
    rw [loop_collect entries.length entries (k + 1) (k + 1)
      ([] ++ [fillRecOf e (k + 1)]) (by omega)]
    have hdrop : entries.drop k = e :: entries.drop (k + 1) := by
      rw [List.drop_eq_getElem_cons hlt, hi]
    rw [hdrop]
    simp [recsAux, recOf]
  · rw [recsAux_length]
    simp

/-- Witness for C4 on the three-entry directory with `k = 1`. -/
theorem readdir_stop_resume_exact_inst :
    logfuse_readdir capFiller 0 (freshCursor dirABC) (1, []) =
        (⟨⟨dirABC, 2⟩, some ⟨2, 8, "b"⟩, 1⟩,
          (0, recsAux (dirABC.take 1) 0), 0)
    ∧ (recsAux (dirABC.take 1) 0).map FillRec.nextOffset =
        List.range' 1 1
    ∧ (logfuse_readdir collectFiller 1
        ⟨⟨dirABC, 2⟩, some ⟨2, 8, "b"⟩, 1⟩ []).2.1 =
        recsAux (dirABC.drop 1) 1
    ∧ (recsAux (dirABC.drop 1) 1).length = dirABC.length - 1 :=
  readdir_stop_resume_exact dirABC 1 ⟨2, 8, "b"⟩ rfl

end LogFuse
